import Mathlib

/-!
Shallow embedding of the market-checklist program (`Liquidity_app.py`).

Time-series are embedded as lists: a date-indexed series is a
`List (Date × ℚ)` in the order the frame stores its rows, and a plain
price series (where only positional order matters) is a `List ℚ`.
Python floats are embedded as rationals; `None` as `Option.none`.
-/

namespace MarketChecklist

/-- A calendar date, ordered lexicographically by (year, month, day). -/
structure Date where
  year : ℤ
  month : ℤ
  day : ℤ
deriving DecidableEq, Repr

/-- Comparison `a ≤ b` on dates, as the pandas timestamp index comparison. -/
def Date.leb (a b : Date) : Bool :=
  decide (a.year < b.year ∨ (a.year = b.year ∧
    (a.month < b.month ∨ (a.month = b.month ∧ a.day ≤ b.day))))

/-- Gregorian leap-year rule, as `calendar.monthrange` uses it. -/
def isLeapYear (y : ℤ) : Bool :=
  (y % 4 == 0 && y % 100 != 0) || (y % 400 == 0)

/-- Number of days of month `m` of year `y` (`calendar.monthrange(y, m)[1]`). -/
def daysInMonth (y m : ℤ) : ℤ :=
  if m = 2 then (if isLeapYear y then 29 else 28)
  else if m = 4 ∨ m = 6 ∨ m = 9 ∨ m = 11 then 30
  else 31

/-- Source `get_month_end_date(year, month)`: the last day of the given month. -/
def get_month_end_date (y m : ℤ) : Date :=
  ⟨y, m, daysInMonth y m⟩

/-- Month normalization: the source's `while target_month <= 0:
target_month += 12; target_year -= 1` loop, written in closed form
(the loop runs only when `m ≤ 0`, and then lands the month in `1..12`
subtracting one year per wrap). -/
def normalizeMonth (y m : ℤ) : ℤ × ℤ :=
  if m ≤ 0 then (y + (m - 1) / 12, (m - 1) % 12 + 1) else (y, m)

/-- Lookup `data[data.index <= d].iloc[-1]` on a date-indexed series: the last
row whose date is at most `d`; `none` when the filtered frame is empty. -/
def valueAsOf (data : List (Date × ℚ)) (d : Date) : Option ℚ :=
  ((data.filter fun p => Date.leb p.1 d).getLast?).map Prod.snd

/-- Source `get_latest_month_end` (the source reads `today` from the clock; the
embedding takes it as the argument): last month's end when the
day-of-month exceeds 5, otherwise the end of the month two months back. -/
def get_latest_month_end (today : Date) : Date :=
  if 5 < today.day then
    get_month_end_date (if 1 < today.month then today.year else today.year - 1)
      (if 1 < today.month then today.month - 1 else 12)
  else
    get_month_end_date (if 2 < today.month then today.year else today.year - 1)
      (if 2 < today.month then today.month - 2 else 12 + today.month - 2)

/-- End of the month `i` months before `ref`'s month (year rolled by
`normalizeMonth`); the anchor date both return calculators resolve. -/
def monthEndBack (ref : Date) (i : ℕ) : Date :=
  let ym := normalizeMonth ref.year (ref.month - i)
  get_month_end_date ym.1 ym.2

/-- Source `calc_monthly_return(data, months_back, reference_date)`. -/
def calc_monthly_return (data : List (Date × ℚ)) (monthsBack : ℕ)
    (ref : Date) : Option ℚ := do
  let refPrice ← valueAsOf data ref
  let targetPrice ← valueAsOf data (monthEndBack ref monthsBack)
  pure ((refPrice / targetPrice - 1) * 100)

/-- One iteration of the `calc_irx_compounded_return` loop: the annualized
rate as of the end of the month `i` months back, divided by 100 and by 12. -/
def monthlyRate (irx : List (Date × ℚ)) (ref : Date) (i : ℕ) : Option ℚ :=
  (valueAsOf irx (monthEndBack ref i)).map fun y => y / 100 / 12

/-- The `monthly_returns` list built by the loop of
`calc_irx_compounded_return` for `i = 0, …, n-1`; `none` as soon as any
month's rate is unavailable (the source returns `None` there). -/
def collectRates (irx : List (Date × ℚ)) (ref : Date) : ℕ → Option (List ℚ)
  | 0 => some []
  | n + 1 =>
    match collectRates irx ref n, monthlyRate irx ref n with
    | some rs, some r => some (rs ++ [r])
    | _, _ => none

/-- Source `calc_irx_compounded_return(irx_data, months_back, reference_date)`:
compound the collected monthly rates multiplicatively. -/
def calc_irx_compounded_return (irx : List (Date × ℚ)) (monthsBack : ℕ)
    (ref : Date) : Option ℚ :=
  (collectRates irx ref monthsBack).map fun rs =>
    (rs.foldl (fun acc r => acc * (1 + r)) 1 - 1) * 100

/-- Source `calc_ma(data, period)`: `None` when the series is shorter than the
period, else the mean of the last `period` observations (`.tail(period)`). -/
def calc_ma (data : List ℚ) (period : ℕ) : Option ℚ :=
  if data.length < period then none
  else some ((data.drop (data.length - period)).sum / period)

/-- Source `calculate_stage(price, ma50, ma150, ma200)` on defined inputs (the
`float(...)` conversions succeed, so the `except` branch is not taken). -/
def calculate_stage (price ma50 ma150 ma200 : ℚ) : String × ℚ :=
  if price > ma50 ∧ ma50 > ma150 ∧ ma150 > ma200 then ("S2", 1)
  else if price > ma50 ∧ ma50 > ma150 ∧ ma150 < ma200 then ("S1", 0.5)
  else if price > ma50 ∧ ma50 < ma150 ∧ ma150 > ma200 then ("S3 Strong", 0.5)
  else ("Other", 0)

/-- Source `calculate_stage` on possibly-undefined inputs: when any argument is
`None`, `float(None)` raises and the `except` branch returns
`("Error", 0.0)`. -/
def calculate_stage_opt (price ma50 ma150 ma200 : Option ℚ) : String × ℚ :=
  match price, ma50, ma150, ma200 with
  | some p, some a, some b, some c => calculate_stage p a b c
  | _, _, _, _ => ("Error", 0)

/-- Python `round` on a rational: nearest integer, ties to even. -/
def pyRound (x : ℚ) : ℤ :=
  let n := ⌊x⌋
  if x - n < 1 / 2 then n
  else if 1 / 2 < x - n then n + 1
  else if n % 2 = 0 then n else n + 1

/-- Python `int` on a rational: truncation toward zero. -/
def pyInt (q : ℚ) : ℤ :=
  if 0 ≤ q then ⌊q⌋ else ⌈q⌉

/-- Quantization `rounded_score = round(score * 2) / 2`. -/
def quantizeHalf (s : ℚ) : ℚ :=
  (pyRound (s * 2) : ℚ) / 2

/-- The `position_map` dict lookup: `{10.0: 90, 9.0: 100, 8.0: 80,
7.0: 60, 6.0: 50, 5.0: 40}`. -/
def position_map (q : ℚ) : Option ℤ :=
  if q = 10 then some 90
  else if q = 9 then some 100
  else if q = 8 then some 80
  else if q = 7 then some 60
  else if q = 6 then some 50
  else if q = 5 then some 40
  else none

/-- Body of `calculate_position_percentage` after the input has been
quantized to `rounded_score`. -/
def positionFromRounded (rounded : ℚ) : ℤ :=
  match position_map rounded with
  | some v => v
  | none =>
    if 9 ≤ rounded then 100
    else if 5 < rounded then
      match position_map (pyInt rounded), position_map (pyInt rounded + 1) with
      | some lv, some uv => pyInt (lv + (uv - lv) * (rounded - pyInt rounded))
      | _, _ => if rounded < 5 then pyInt (rounded / 5 * 40) else 0
    else if rounded < 5 then pyInt (rounded / 5 * 40)
    else 0

/-- Source `calculate_position_percentage(score)`. -/
def calculate_position_percentage (score : ℚ) : ℤ :=
  positionFromRounded (quantizeHalf score)

/-- The moving-average cross pattern shared by the TIP 5/20, IBIT 3/8 and
sentiment 3/8 indicators: a `None` moving average is replaced by `0`
(`float(x) if x is not None else 0`) before the comparison. -/
def ma_cross_score (data : List ℚ) (s l : ℕ) : ℚ :=
  let ms := (calc_ma data s).getD 0
  let ml := (calc_ma data l).getD 0
  if ms > ml then 1 else 0

/-- TIP indicator (module level, lines 473–479): 5-day vs 20-day MA. -/
def tip_indicator_score (tip_data : List ℚ) : ℚ :=
  ma_cross_score tip_data 5 20

/-- IBIT indicator (module level, lines 500–506): 3-day vs 8-day MA. -/
def ibit_indicator_score (ibit_data : List ℚ) : ℚ :=
  ma_cross_score ibit_data 3 8

/-- Elementwise quotient of two price series; pandas index alignment is
modelled positionally. -/
def seriesDiv (a b : List ℚ) : List ℚ :=
  List.zipWith (fun x y => x / y) a b

/-- BND vs IRX indicator (lines 438–465): weighted 3/6/11-month returns;
any `None` return raises in the arithmetic and the `except` scores 0. -/
def bnd_irx_indicator (bnd irx : List (Date × ℚ)) (ref : Date) : ℚ :=
  match calc_monthly_return bnd 3 ref, calc_monthly_return bnd 6 ref,
      calc_monthly_return bnd 11 ref, calc_irx_compounded_return irx 3 ref,
      calc_irx_compounded_return irx 6 ref, calc_irx_compounded_return irx 11 ref with
  | some b3, some b6, some b11, some i3, some i6, some i11 =>
    if b3 * 0.33 + b6 * 0.33 + b11 * 0.34 > i3 * 0.33 + i6 * 0.33 + i11 * 0.34
    then 1 else 0
  | _, _, _, _, _, _ => 0

/-- Citi surprise month-over-month change (line 575): guarded to `0`
when the prior value is exactly `0`. -/
def citi_mom (citi_value citi_prev : ℚ) : ℚ :=
  if citi_prev ≠ 0 then (citi_value - citi_prev) / |citi_prev| * 100 else 0

/-- Citi surprise indicator (lines 574–577): 0.5 for a positive value
plus 0.5 for positive month-over-month change. -/
def citi_indicator (citi_value citi_prev : ℚ) : ℚ :=
  (if citi_value > 0 then 0.5 else 0)
    + (if citi_mom citi_value citi_prev > 0 then 0.5 else 0)

/-- Stage 2 indicator dispatch (lines 878–927) for one index: `none`
models the `data is None` path ("No Data"); with at least 200 points the
price and the three moving averages feed `calculate_stage`, and a `None`
moving average short-circuits to the "Error" metric with score 0. -/
def stage2_indicator (data : Option (List ℚ)) : String × ℚ :=
  match data with
  | some d =>
    if 200 ≤ d.length then
      match calc_ma d 50, calc_ma d 150, calc_ma d 200, d.getLast? with
      | some a, some b, some c, some p => calculate_stage p a b c
      | _, _, _, _ => ("Error", 0)
    else ("No Data", 0)
  | none => ("No Data", 0)

/-- The three-way uptrend-confirmation selection. -/
inductive UptrendStatus
  | confirmed
  | underPressure
  | ambiguous
deriving DecidableEq

/-- Uptrend-confirmation score table (lines 793–802). -/
def uptrendScore : UptrendStatus → ℚ
  | .confirmed => 1
  | .ambiguous => 0.5
  | .underPressure => 0

/-- The four-way market-pulse selection. -/
inductive MarketPulse
  | green
  | greyStrong
  | greyWeak
  | red
deriving DecidableEq

/-- Market-pulse score table (lines 955–964). -/
def pulseScore : MarketPulse → ℚ
  | .green => 1
  | .greyStrong => 0.5
  | .greyWeak => 0
  | .red => 0

/-- The four series `fetch_liquidity_data` returns (present together). -/
structure LiquidityData where
  bnd : List (Date × ℚ)
  irx : List (Date × ℚ)
  tip : List ℚ
  ibit : List ℚ

/-- The six series `fetch_sentiment_data` returns (present together). -/
structure SentimentData where
  xly : List ℚ
  xlp : List ℚ
  ffty : List ℚ
  hk3109 : List ℚ
  hk3437 : List ℚ
  hk3067 : List ℚ

/-- One refresh's fetched market data; each fetch may fail as a whole. -/
structure MarketData where
  today : Date
  liquidity : Option LiquidityData
  sentiment : Option SentimentData
  spx : Option (List ℚ)
  ndx : Option (List ℚ)
  hsi : Option (List ℚ)

/-- The manually entered inputs. -/
structure ManualInputs where
  citi_value : ℚ
  citi_prev : ℚ
  r3fi : ℚ
  uptrend_spx : UptrendStatus
  uptrend_ndx : UptrendStatus
  uptrend_hsi : UptrendStatus
  pulse_spx : MarketPulse
  pulse_ndx : MarketPulse
  pulse_hsi : MarketPulse

/-- Liquidity category total (line 524): sum of the three liquidity
indicator scores; stays 0 when the fetch failed (fresh session). -/
def total_score_liq (md : MarketData) : ℚ :=
  match md.liquidity with
  | some l =>
    bnd_irx_indicator l.bnd l.irx (get_latest_month_end md.today)
      + tip_indicator_score l.tip + ibit_indicator_score l.ibit
  | none => 0

/-- US sentiment total (line 746): Citi + Russell-3000 breadth +
XLY/XLP ratio cross + FFTY cross. -/
def score_sent_us (md : MarketData) (mi : ManualInputs) : ℚ :=
  citi_indicator mi.citi_value mi.citi_prev
    + (if mi.r3fi > 50 then 1 else 0)
    + (match md.sentiment with
      | some s => ma_cross_score (seriesDiv s.xly s.xlp) 3 8
          + ma_cross_score s.ffty 3 8
      | none => 0)

/-- HK sentiment total (line 747): the two shared manual indicators plus
the HK-specific ratio and growth crosses. -/
def score_sent_hk (md : MarketData) (mi : ManualInputs) : ℚ :=
  citi_indicator mi.citi_value mi.citi_prev
    + (if mi.r3fi > 50 then 1 else 0)
    + (match md.sentiment with
      | some s => ma_cross_score (seriesDiv s.hk3109 s.hk3437) 3 8
          + ma_cross_score s.hk3067 3 8
      | none => 0)

/-- Source `score_sent_spx` (line 750): the shared US sentiment total. -/
def score_sent_spx (md : MarketData) (mi : ManualInputs) : ℚ :=
  score_sent_us md mi

/-- Source `score_sent_ndx` (line 751): the shared US sentiment total. -/
def score_sent_ndx (md : MarketData) (mi : ManualInputs) : ℚ :=
  score_sent_us md mi

/-- Source `score_sent_hsi` (line 752). -/
def score_sent_hsi (md : MarketData) (mi : ManualInputs) : ℚ :=
  score_sent_hk md mi

/-- SPX trend total (line 1025): uptrend + stage-2 + market pulse. -/
def score_trend_spx (md : MarketData) (mi : ManualInputs) : ℚ :=
  uptrendScore mi.uptrend_spx + (stage2_indicator md.spx).2
    + pulseScore mi.pulse_spx

/-- NDX trend total (line 1026). -/
def score_trend_ndx (md : MarketData) (mi : ManualInputs) : ℚ :=
  uptrendScore mi.uptrend_ndx + (stage2_indicator md.ndx).2
    + pulseScore mi.pulse_ndx

/-- HSI trend total (line 1027). -/
def score_trend_hsi (md : MarketData) (mi : ManualInputs) : ℚ :=
  uptrendScore mi.uptrend_hsi + (stage2_indicator md.hsi).2
    + pulseScore mi.pulse_hsi

/-- SPX grand total (line 1035): liquidity + sentiment + trend. -/
def total_score_spx (md : MarketData) (mi : ManualInputs) : ℚ :=
  total_score_liq md + score_sent_spx md mi + score_trend_spx md mi

/-- NDX grand total (line 1036). -/
def total_score_ndx (md : MarketData) (mi : ManualInputs) : ℚ :=
  total_score_liq md + score_sent_ndx md mi + score_trend_ndx md mi

/-- HSI grand total (line 1037). -/
def total_score_hsi (md : MarketData) (mi : ManualInputs) : ℚ :=
  total_score_liq md + score_sent_hsi md mi + score_trend_hsi md mi

/-! ## Theorems -/

/-- The closed-form month normalization satisfies the recurrence of the
source's `while target_month <= 0` loop. -/
theorem normalizeMonth_loop (y m : ℤ) (h : m ≤ 0) :
    normalizeMonth y m = normalizeMonth (y - 1) (m + 12) := by
  simp only [normalizeMonth, if_pos h]
  by_cases h2 : m + 12 ≤ 0
  · rw [if_pos h2, Prod.mk.injEq]
    exact ⟨by omega, by omega⟩
  · rw [if_neg h2, Prod.mk.injEq]
    exact ⟨by omega, by omega⟩

lemma drop_length_sub_sum (S : List ℚ) (P : ℕ) :
    (S.drop (S.length - P)).sum = (S.reverse.take P).sum := by
  have h : S.drop (S.length - P) = (S.reverse.take P).reverse := by
    rw [← List.rtake_eq_reverse_take_reverse]; rfl
  rw [h, List.sum_reverse]

lemma calc_ma_of_le (S : List ℚ) (P : ℕ) (h : P ≤ S.length) :
    calc_ma S P = some ((S.reverse.take P).sum / P) := by
  rw [calc_ma, if_neg (not_lt.mpr h), drop_length_sub_sum]

lemma calc_ma_of_lt (S : List ℚ) (P : ℕ) (h : S.length < P) :
    calc_ma S P = none := by
  rw [calc_ma, if_pos h]

/-- C5: `calc_ma(S, P)` is the arithmetic mean of the last `P`
observations of `S` (in series order) whenever `len(S) ≥ P`, and is
`None` whenever `len(S) < P`. -/
theorem calc_ma_spec (S : List ℚ) (P : ℕ) :
    (P ≤ S.length → calc_ma S P = some ((S.reverse.take P).sum / P)) ∧
    (S.length < P → calc_ma S P = none) :=
  ⟨calc_ma_of_le S P, calc_ma_of_lt S P⟩

/-- Witness for C5 at the spec's literal scenario:
`A = [10,11,12,13,14]`, `period = 5`, `MA = 12`. -/
theorem calc_ma_witness : calc_ma [10, 11, 12, 13, 14] 5 = some 12 := by
  have h := (calc_ma_spec [10, 11, 12, 13, 14] 5).1 (by norm_num)
  rw [h]
  norm_num

/-- C3: on defined inputs the stage classification returns exactly the
first matching case of the ordered rule list, and always lands in one of
the four states. -/
theorem calculate_stage_total_spec (price ma50 ma150 ma200 : ℚ) :
    (calculate_stage price ma50 ma150 ma200 = ("S2", 1) ↔
      price > ma50 ∧ ma50 > ma150 ∧ ma150 > ma200) ∧
    (calculate_stage price ma50 ma150 ma200 = ("S1", 0.5) ↔
      price > ma50 ∧ ma50 > ma150 ∧ ma150 < ma200) ∧
    (calculate_stage price ma50 ma150 ma200 = ("S3 Strong", 0.5) ↔
      price > ma50 ∧ ma50 < ma150 ∧ ma150 > ma200) ∧
    (calculate_stage price ma50 ma150 ma200 = ("Other", 0) ↔
      ¬(price > ma50 ∧ ma50 > ma150 ∧ ma150 > ma200) ∧
      ¬(price > ma50 ∧ ma50 > ma150 ∧ ma150 < ma200) ∧
      ¬(price > ma50 ∧ ma50 < ma150 ∧ ma150 > ma200)) ∧
    (calculate_stage price ma50 ma150 ma200 = ("S2", 1) ∨
      calculate_stage price ma50 ma150 ma200 = ("S1", 0.5) ∨
      calculate_stage price ma50 ma150 ma200 = ("S3 Strong", 0.5) ∨
      calculate_stage price ma50 ma150 ma200 = ("Other", 0)) := by
  unfold calculate_stage
  split_ifs with h1 h2 h3 <;>
    refine ⟨?_, ?_, ?_, ?_, ?_⟩ <;>
    simp_all [Prod.ext_iff] <;>
    linarith [h1.1, h1.2.1, h1.2.2]

/-- C6: when any input to the stage classification is undefined, the
`float` conversion raises and the classifier returns the distinct
`"Error"` state with score 0, never the `"Other"` state. -/
theorem calculate_stage_error_spec (price ma50 ma150 ma200 : Option ℚ)
    (h : price = none ∨ ma50 = none ∨ ma150 = none ∨ ma200 = none) :
    calculate_stage_opt price ma50 ma150 ma200 = ("Error", 0) ∧
    (calculate_stage_opt price ma50 ma150 ma200).1 ≠ "Other" := by
  have hres : calculate_stage_opt price ma50 ma150 ma200 = ("Error", 0) := by
    cases price <;> cases ma50 <;> cases ma150 <;> cases ma200 <;>
      simp_all [calculate_stage_opt]
  exact ⟨hres, by rw [hres]; decide⟩

/-- Witness for C6: a missing 150-day moving average. -/
theorem calculate_stage_error_witness :
    calculate_stage_opt (some 110) (some 105) none (some 100) = ("Error", 0) ∧
    (calculate_stage_opt (some 110) (some 105) none (some 100)).1 ≠ "Other" :=
  calculate_stage_error_spec (some 110) (some 105) none (some 100)
    (Or.inr (Or.inr (Or.inl rfl)))

/-- C7: month-over-month change is `(current − prior)/|prior| × 100` for
a nonzero prior and is exactly 0 for a zero prior (a guarded value, not
an error); in the zero-prior case the momentum half contributes 0 while
the above-zero half is unaffected. -/
theorem citi_mom_guard_spec (c p : ℚ) :
    (p ≠ 0 → citi_mom c p = (c - p) / |p| * 100) ∧
    (p = 0 → citi_mom c p = 0 ∧
      citi_indicator c p = if c > 0 then 0.5 else 0) := by
  constructor
  · intro hp
    rw [citi_mom, if_pos hp]
  · intro hp
    have hm : citi_mom c p = 0 := by
      rw [citi_mom, if_neg (by simp [hp])]
    refine ⟨hm, ?_⟩
    rw [citi_indicator, hm]
    norm_num

/-- Witness for C7 at the spec's scenario: `current = 5`, `prior = 0`
gives month-over-month 0 and indicator total 0.5. -/
theorem citi_mom_guard_witness :
    citi_mom 5 0 = 0 ∧ citi_indicator 5 0 = 0.5 := by
  have h := (citi_mom_guard_spec 5 0).2 rfl
  exact ⟨h.1, by rw [h.2]; norm_num⟩

lemma calc_ma_pos_of_pos (d : List ℚ) (P : ℕ) (hP : 0 < P)
    (hlen : P ≤ d.length) (hpos : ∀ x ∈ d, 0 < x) :
    0 < (calc_ma d P).getD 0 := by
  have hsome := calc_ma_of_le d P hlen
  rw [hsome, Option.getD_some]
  have hne : d.reverse.take P ≠ [] := by
    have : (d.reverse.take P).length = P := by
      rw [List.length_take, List.length_reverse]
      omega
    intro hnil
    rw [hnil] at this
    simp at this
    omega
  have hsum : 0 < (d.reverse.take P).sum := by
    apply List.sum_pos
    · intro x hx
      exact hpos x (List.mem_reverse.mp (List.mem_of_mem_take hx))
    · exact hne
  positivity

/-- C2 (counterexample): a series of five positive observations leaves
the 20-day moving average undefined, yet the TIP evaluator substitutes
`0` for it and the bullish comparison against `0.0` scores 1 — the
undefined moving average is not propagated. -/
theorem tip_ma_zero_substitution_cex :
    calc_ma [10, 10, 10, 10, 10] 20 = none ∧
    tip_indicator_score [10, 10, 10, 10, 10] = 1 := by
  constructor
  · rfl
  · rw [tip_indicator_score, ma_cross_score]
    have h5 := calc_ma_of_le [10, 10, 10, 10, 10] 5 (by norm_num)
    have h20 := calc_ma_of_lt [10, 10, 10, 10, 10] 20 (by norm_num)
    rw [h5, h20]
    norm_num

/-- C2 (amended): when the long moving average needs more observations
than the series contains, the TIP 5/20 and IBIT 3/8 evaluators replace
the undefined value with `0.0` before the bullish/bearish comparison;
with positive prices and a defined short moving average the comparison
is made against `0.0` and always scores bullish. -/
theorem ma_zero_substitution_spec :
    (∀ d : List ℚ, 5 ≤ d.length → d.length < 20 → (∀ x ∈ d, 0 < x) →
      calc_ma d 20 = none ∧ tip_indicator_score d = 1) ∧
    (∀ d : List ℚ, 3 ≤ d.length → d.length < 8 → (∀ x ∈ d, 0 < x) →
      calc_ma d 8 = none ∧ ibit_indicator_score d = 1) := by
  constructor
  · intro d h5 h20 hpos
    have hnone := calc_ma_of_lt d 20 h20
    refine ⟨hnone, ?_⟩
    rw [tip_indicator_score, ma_cross_score, hnone]
    rw [if_pos]
    simpa using calc_ma_pos_of_pos d 5 (by norm_num) h5 hpos
  · intro d h3 h8 hpos
    have hnone := calc_ma_of_lt d 8 h8
    refine ⟨hnone, ?_⟩
    rw [ibit_indicator_score, ma_cross_score, hnone]
    rw [if_pos]
    simpa using calc_ma_pos_of_pos d 3 (by norm_num) h3 hpos

/-- Witness for the amended C2 on concrete short series. -/
theorem ma_zero_substitution_witness :
    (calc_ma [10, 10, 10, 10, 10] 20 = none ∧
      tip_indicator_score [10, 10, 10, 10, 10] = 1) ∧
    (calc_ma [10, 10, 10] 8 = none ∧
      ibit_indicator_score [10, 10, 10] = 1) :=
  ⟨ma_zero_substitution_spec.1 [10, 10, 10, 10, 10] (by norm_num)
      (by norm_num) (by norm_num),
    ma_zero_substitution_spec.2 [10, 10, 10] (by norm_num)
      (by norm_num) (by norm_num)⟩

lemma ma_cross_score_mem (d : List ℚ) (s l : ℕ) :
    ma_cross_score d s l = 0 ∨ ma_cross_score d s l = 1 := by
  rw [ma_cross_score]
  split_ifs <;> simp

lemma bnd_irx_indicator_mem (bnd irx : List (Date × ℚ)) (ref : Date) :
    bnd_irx_indicator bnd irx ref = 0 ∨ bnd_irx_indicator bnd irx ref = 1 := by
  rw [bnd_irx_indicator]
  split <;> first | (split_ifs <;> simp) | simp

lemma citi_indicator_bounds (c p : ℚ) :
    0 ≤ citi_indicator c p ∧ citi_indicator c p ≤ 1 := by
  rw [citi_indicator]
  split_ifs <;> norm_num

lemma calculate_stage_snd_bounds (price ma50 ma150 ma200 : ℚ) :
    0 ≤ (calculate_stage price ma50 ma150 ma200).2 ∧
      (calculate_stage price ma50 ma150 ma200).2 ≤ 1 := by
  rw [calculate_stage]
  split_ifs <;> norm_num

lemma stage2_indicator_snd_bounds (data : Option (List ℚ)) :
    0 ≤ (stage2_indicator data).2 ∧ (stage2_indicator data).2 ≤ 1 := by
  rcases data with _ | d
  · norm_num [stage2_indicator]
  · simp only [stage2_indicator]
    split_ifs
    · split
      · exact calculate_stage_snd_bounds _ _ _ _
      · norm_num
    · norm_num

lemma uptrendScore_bounds (u : UptrendStatus) :
    0 ≤ uptrendScore u ∧ uptrendScore u ≤ 1 := by
  cases u <;> norm_num [uptrendScore]

lemma pulseScore_bounds (u : MarketPulse) :
    0 ≤ pulseScore u ∧ pulseScore u ≤ 1 := by
  cases u <;> norm_num [pulseScore]

lemma total_score_liq_bounds (md : MarketData) :
    0 ≤ total_score_liq md ∧ total_score_liq md ≤ 3 := by
  rw [total_score_liq]
  rcases md.liquidity with _ | l
  · norm_num
  · simp only
    rcases bnd_irx_indicator_mem l.bnd l.irx (get_latest_month_end md.today)
        with h1 | h1 <;>
      rcases ma_cross_score_mem l.tip 5 20 with h2 | h2 <;>
      rcases ma_cross_score_mem l.ibit 3 8 with h3 | h3 <;>
      rw [tip_indicator_score, ibit_indicator_score, h1, h2, h3] <;> norm_num

lemma score_sent_us_bounds (md : MarketData) (mi : ManualInputs) :
    0 ≤ score_sent_us md mi ∧ score_sent_us md mi ≤ 4 := by
  rw [score_sent_us]
  have hc := citi_indicator_bounds mi.citi_value mi.citi_prev
  have hr : (0:ℚ) ≤ (if mi.r3fi > 50 then 1 else 0) ∧
      (if mi.r3fi > 50 then (1:ℚ) else 0) ≤ 1 := by split_ifs <;> norm_num
  rcases md.sentiment with _ | s
  · constructor <;> simp <;> linarith [hc.1, hc.2, hr.1, hr.2]
  · simp only
    rcases ma_cross_score_mem (seriesDiv s.xly s.xlp) 3 8 with h1 | h1 <;>
      rcases ma_cross_score_mem s.ffty 3 8 with h2 | h2 <;>
      rw [h1, h2] <;> constructor <;> linarith [hc.1, hc.2, hr.1, hr.2]

lemma score_sent_hk_bounds (md : MarketData) (mi : ManualInputs) :
    0 ≤ score_sent_hk md mi ∧ score_sent_hk md mi ≤ 4 := by
  rw [score_sent_hk]
  have hc := citi_indicator_bounds mi.citi_value mi.citi_prev
  have hr : (0:ℚ) ≤ (if mi.r3fi > 50 then 1 else 0) ∧
      (if mi.r3fi > 50 then (1:ℚ) else 0) ≤ 1 := by split_ifs <;> norm_num
  rcases md.sentiment with _ | s
  · constructor <;> simp <;> linarith [hc.1, hc.2, hr.1, hr.2]
  · simp only
    rcases ma_cross_score_mem (seriesDiv s.hk3109 s.hk3437) 3 8 with h1 | h1 <;>
      rcases ma_cross_score_mem s.hk3067 3 8 with h2 | h2 <;>
      rw [h1, h2] <;> constructor <;> linarith [hc.1, hc.2, hr.1, hr.2]

lemma trend_bounds (u : UptrendStatus) (d : Option (List ℚ)) (p : MarketPulse) :
    0 ≤ uptrendScore u + (stage2_indicator d).2 + pulseScore p ∧
      uptrendScore u + (stage2_indicator d).2 + pulseScore p ≤ 3 := by
  have h1 := uptrendScore_bounds u
  have h2 := stage2_indicator_snd_bounds d
  have h3 := pulseScore_bounds p
  constructor <;> linarith [h1.1, h1.2, h2.1, h2.2, h3.1, h3.2]

/-- C9: each track's grand total is the sum of exactly the shared
liquidity total, the track's sentiment total and the track's trend
total; the categories are bounded by 3, 4 and 3, so every grand total
lies in [0, 10]. -/
theorem track_totals_spec (md : MarketData) (mi : ManualInputs) :
    (total_score_spx md mi
      = total_score_liq md + score_sent_spx md mi + score_trend_spx md mi) ∧
    (total_score_ndx md mi
      = total_score_liq md + score_sent_ndx md mi + score_trend_ndx md mi) ∧
    (total_score_hsi md mi
      = total_score_liq md + score_sent_hsi md mi + score_trend_hsi md mi) ∧
    (0 ≤ total_score_liq md ∧ total_score_liq md ≤ 3) ∧
    (0 ≤ score_sent_spx md mi ∧ score_sent_spx md mi ≤ 4) ∧
    (0 ≤ score_sent_ndx md mi ∧ score_sent_ndx md mi ≤ 4) ∧
    (0 ≤ score_sent_hsi md mi ∧ score_sent_hsi md mi ≤ 4) ∧
    (0 ≤ score_trend_spx md mi ∧ score_trend_spx md mi ≤ 3) ∧
    (0 ≤ score_trend_ndx md mi ∧ score_trend_ndx md mi ≤ 3) ∧
    (0 ≤ score_trend_hsi md mi ∧ score_trend_hsi md mi ≤ 3) ∧
    (0 ≤ total_score_spx md mi ∧ total_score_spx md mi ≤ 10) ∧
    (0 ≤ total_score_ndx md mi ∧ total_score_ndx md mi ≤ 10) ∧
    (0 ≤ total_score_hsi md mi ∧ total_score_hsi md mi ≤ 10) := by
  have hl := total_score_liq_bounds md
  have hsu := score_sent_us_bounds md mi
  have hsh := score_sent_hk_bounds md mi
  have ht1 := trend_bounds mi.uptrend_spx md.spx mi.pulse_spx
  have ht2 := trend_bounds mi.uptrend_ndx md.ndx mi.pulse_ndx
  have ht3 := trend_bounds mi.uptrend_hsi md.hsi mi.pulse_hsi
  refine ⟨rfl, rfl, rfl, hl, hsu, hsu, hsh, ht1, ht2, ht3, ?_, ?_, ?_⟩ <;>
    simp only [total_score_spx, total_score_ndx, total_score_hsi,
      score_sent_spx, score_sent_ndx, score_sent_hsi, score_trend_spx,
      score_trend_ndx, score_trend_hsi] <;>
    constructor <;>
    linarith [hl.1, hl.2, hsu.1, hsu.2, hsh.1, hsh.2, ht1.1, ht1.2,
      ht2.1, ht2.2, ht3.1, ht3.2]

/-- C10: the SPX and NDX tracks share the single US sentiment total, so
their grand totals can differ only through their trend scores. -/
theorem sentiment_shared_spec (md : MarketData) (mi : ManualInputs) :
    score_sent_spx md mi = score_sent_ndx md mi ∧
    total_score_spx md mi - total_score_ndx md mi
      = score_trend_spx md mi - score_trend_ndx md mi := by
  refine ⟨rfl, ?_⟩
  unfold total_score_spx total_score_ndx score_sent_spx score_sent_ndx
  ring

/-- C8: `get_latest_month_end` returns the calendar-correct end of last
month when today's day-of-month exceeds 5, and of the month two months
back otherwise, rolling the year boundary as the month normalization
does (January, and February in the two-months-back case, land in the
previous year). -/
theorem latest_month_end_spec (today : Date) (hm1 : 1 ≤ today.month)
    (hm2 : today.month ≤ 12) :
    (5 < today.day → get_latest_month_end today = monthEndBack today 1) ∧
    (today.day ≤ 5 → get_latest_month_end today = monthEndBack today 2) ∧
    1 ≤ (get_latest_month_end today).month ∧
    (get_latest_month_end today).month ≤ 12 ∧
    (5 < today.day → today.month = 1 →
      (get_latest_month_end today).year = today.year - 1) ∧
    (today.day ≤ 5 → today.month ≤ 2 →
      (get_latest_month_end today).year = today.year - 1) ∧
    (get_latest_month_end today).day
      = daysInMonth (get_latest_month_end today).year
          (get_latest_month_end today).month := by
  have key : ∀ a b c d : ℤ, a = c → b = d →
      get_month_end_date a b = get_month_end_date c d := by
    intro a b c d h h'
    rw [h, h']
  refine ⟨?_, ?_, ?_, ?_, ?_, ?_, ?_⟩
  · intro hd
    simp only [get_latest_month_end, monthEndBack, normalizeMonth]
    rw [if_pos hd]
    push_cast
    split_ifs <;> apply key <;> simp <;> omega
  · intro hd
    simp only [get_latest_month_end, monthEndBack, normalizeMonth]
    rw [if_neg (not_lt.mpr hd)]
    push_cast
    split_ifs <;> apply key <;> simp <;> omega
  · simp only [get_latest_month_end, get_month_end_date]
    split_ifs <;> simp <;> omega
  · simp only [get_latest_month_end, get_month_end_date]
    split_ifs <;> simp <;> omega
  · intro hd hm
    simp only [get_latest_month_end, get_month_end_date]
    rw [if_pos hd]
    split_ifs
    all_goals simp
    all_goals omega
  · intro hd hm
    simp only [get_latest_month_end, get_month_end_date]
    rw [if_neg (not_lt.mpr hd)]
    split_ifs
    all_goals simp
    all_goals omega
  · simp only [get_latest_month_end, get_month_end_date]
    split_ifs <;> rfl

/-- Witness for C8: a leap-February month-end two months back, and a
January that rolls into the previous year. -/
theorem latest_month_end_witness :
    get_latest_month_end ⟨2024, 4, 2⟩ = ⟨2024, 2, 29⟩ ∧
    get_latest_month_end ⟨2026, 1, 10⟩ = ⟨2025, 12, 31⟩ := by
  constructor
  · have h := (latest_month_end_spec ⟨2024, 4, 2⟩ (by decide)
        (by decide)).2.1 (by decide)
    rw [h]
    rfl
  · have h := (latest_month_end_spec ⟨2026, 1, 10⟩ (by decide)
        (by decide)).1 (by decide)
    rw [h]
    rfl

lemma foldl_mul_one_add (rs : List ℚ) (a : ℚ) :
    rs.foldl (fun acc r => acc * (1 + r)) a
      = a * (rs.map fun r => 1 + r).prod := by
  induction rs generalizing a with
  | nil => simp
  | cons r rs ih => simp [ih, mul_assoc]

lemma map_range_prod (f : ℕ → ℚ) (n : ℕ) :
    ((List.range n).map f).prod = ∏ i in Finset.range n, f i := by
  induction n with
  | zero => simp
  | succ n ih =>
    rw [List.range_succ, List.map_append, List.prod_append,
      Finset.prod_range_succ, ih]
    simp

lemma collectRates_eq (irx : List (Date × ℚ)) (ref : Date) (n : ℕ) :
    collectRates irx ref n =
      if ∀ i < n, (monthlyRate irx ref i).isSome then
        some ((List.range n).map fun i => (monthlyRate irx ref i).getD 0)
      else none := by
  induction n with
  | zero => simp [collectRates]
  | succ n ih =>
    simp only [collectRates]
    rw [ih]
    by_cases hall : ∀ i < n, (monthlyRate irx ref i).isSome
    · rw [if_pos hall]
      rcases hrn : monthlyRate irx ref n with _ | r
      · rw [if_neg]
        intro hal
        have h := hal n (Nat.lt_succ_self n)
        rw [hrn] at h
        simp at h
      · rw [if_pos]
        · rw [List.range_succ, List.map_append]
          simp [hrn]
        · intro i hi
          rcases Nat.lt_succ_iff_lt_or_eq.mp hi with h | h
          · exact hall i h
          · subst h
            rw [hrn]
            rfl
    · rw [if_neg hall, if_neg]
      intro hal
      exact hall fun i hi => hal i (Nat.lt_succ_of_lt hi)

lemma monthlyRate_getD (irx : List (Date × ℚ)) (ref : Date) (i : ℕ) :
    (monthlyRate irx ref i).getD 0
      = (valueAsOf irx (monthEndBack ref i)).getD 0 / 100 / 12 := by
  rw [monthlyRate]
  rcases valueAsOf irx (monthEndBack ref i) with _ | y <;> simp

/-- C4: `calc_irx_compounded_return` resolves, for each of the
`monthsBack` trailing months, the annualized rate as of that month's
end, converts it to a monthly rate dividing by 100 and by 12, and
returns `(∏(1+rᵢ) − 1) × 100`; it is `None` exactly when some required
month has no observation at or before its month end; with
`monthsBack = 1` and resolved rate `r` the result is `r/12`. -/
theorem irx_compounded_spec :
    (∀ (irx : List (Date × ℚ)) (mb : ℕ) (ref : Date),
      calc_irx_compounded_return irx mb ref =
        if ∀ i < mb, (valueAsOf irx (monthEndBack ref i)).isSome then
          some (((∏ i in Finset.range mb,
              (1 + (valueAsOf irx (monthEndBack ref i)).getD 0 / 100 / 12))
            - 1) * 100)
        else none) ∧
    (∀ (irx : List (Date × ℚ)) (ref : Date) (r : ℚ),
      valueAsOf irx (monthEndBack ref 0) = some r →
      calc_irx_compounded_return irx 1 ref = some (r / 12)) := by
  have hiff : ∀ (irx : List (Date × ℚ)) (ref : Date) (mb : ℕ),
      (∀ i < mb, (monthlyRate irx ref i).isSome)
        ↔ (∀ i < mb, (valueAsOf irx (monthEndBack ref i)).isSome) := by
    intro irx ref mb
    constructor
    all_goals
      intro h i hi
      have hh := h i hi
      simpa [monthlyRate] using hh
  have ha : ∀ (irx : List (Date × ℚ)) (mb : ℕ) (ref : Date),
      calc_irx_compounded_return irx mb ref =
        if ∀ i < mb, (valueAsOf irx (monthEndBack ref i)).isSome then
          some (((∏ i in Finset.range mb,
              (1 + (valueAsOf irx (monthEndBack ref i)).getD 0 / 100 / 12))
            - 1) * 100)
        else none := by
    intro irx mb ref
    rw [calc_irx_compounded_return, collectRates_eq]
    by_cases hall : ∀ i < mb, (valueAsOf irx (monthEndBack ref i)).isSome
    · rw [if_pos ((hiff irx ref mb).mpr hall), if_pos hall]
      simp only [Option.map_some']
      rw [foldl_mul_one_add, one_mul, List.map_map, map_range_prod]
      have hp : ∀ i ∈ Finset.range mb,
          ((fun r => 1 + r) ∘ fun i => (monthlyRate irx ref i).getD 0) i
            = 1 + (valueAsOf irx (monthEndBack ref i)).getD 0 / 100 / 12 := by
        intro i _
        simp only [Function.comp_apply]
        rw [monthlyRate_getD]
      rw [Finset.prod_congr rfl hp]
    · rw [if_neg (fun h => hall ((hiff irx ref mb).mp h)), if_neg hall]
      rfl
  refine ⟨ha, ?_⟩
  intro irx ref r hr
  rw [ha irx 1 ref, if_pos]
  · rw [Finset.prod_range_one, hr]
    simp only [Option.getD_some]
    congr 1
    ring
  · intro i hi
    have : i = 0 := Nat.lt_one_iff.mp hi
    subst this
    rw [hr]
    rfl

/-- Witness for C4: a one-point series with annualized rate 12 resolved
at the reference month's end gives `12/12 = 1`. -/
theorem irx_compounded_witness :
    calc_irx_compounded_return [(⟨2024, 1, 31⟩, 12)] 1 ⟨2024, 1, 31⟩
      = some 1 := by
  have h := irx_compounded_spec.2 [(⟨2024, 1, 31⟩, 12)] ⟨2024, 1, 31⟩ 12 rfl
  rw [h]
  norm_num

lemma pyInt_intCast (n : ℤ) : pyInt (n : ℚ) = n := by
  rw [pyInt]
  split_ifs <;> simp

/-- C1: `calculate_position_percentage` quantizes to the nearest half
point, maps exact anchors by the table {5→40, 6→50, 7→60, 8→80, 9→100,
10→90} (including the non-monotonic 10→90), linearly interpolates
between the two nearest anchors for quantized scores strictly between 5
and 9 missing the table, clamps to 100 for quantized scores ≥ 9 missing
the table, scales `(score/5)×40` below 5, and gives equal outputs to
inputs with equal quantizations. -/
theorem position_percentage_spec (s : ℚ) :
    (quantizeHalf s = 5 → calculate_position_percentage s = 40) ∧
    (quantizeHalf s = 6 → calculate_position_percentage s = 50) ∧
    (quantizeHalf s = 7 → calculate_position_percentage s = 60) ∧
    (quantizeHalf s = 8 → calculate_position_percentage s = 80) ∧
    (quantizeHalf s = 9 → calculate_position_percentage s = 100) ∧
    (quantizeHalf s = 10 → calculate_position_percentage s = 90) ∧
    (5 < quantizeHalf s → quantizeHalf s < 9 →
      position_map (quantizeHalf s) = none →
      (calculate_position_percentage s : ℚ)
        = (((position_map (⌊quantizeHalf s⌋ : ℚ)).getD 0 : ℤ) : ℚ)
          + ((((position_map ((⌊quantizeHalf s⌋ + 1 : ℤ) : ℚ)).getD 0 : ℤ) : ℚ)
              - (((position_map (⌊quantizeHalf s⌋ : ℚ)).getD 0 : ℤ) : ℚ))
            * (quantizeHalf s - (⌊quantizeHalf s⌋ : ℚ))) ∧
    (9 ≤ quantizeHalf s → position_map (quantizeHalf s) = none →
      calculate_position_percentage s = 100) ∧
    (quantizeHalf s < 5 →
      (calculate_position_percentage s : ℚ) = quantizeHalf s / 5 * 40) ∧
    (∀ t : ℚ, quantizeHalf t = quantizeHalf s →
      calculate_position_percentage t = calculate_position_percentage s) := by
  obtain ⟨k, hk⟩ : ∃ k : ℤ, pyRound (s * 2) = k := ⟨_, rfl⟩
  have hq : quantizeHalf s = (k : ℚ) / 2 := by
    rw [quantizeHalf, hk]
  have hcp : calculate_position_percentage s
      = positionFromRounded ((k : ℚ) / 2) := by
    rw [calculate_position_percentage, hq]
  refine ⟨?_, ?_, ?_, ?_, ?_, ?_, ?_, ?_, ?_, ?_⟩
  · intro h
    rw [hq] at h
    have hk10 : k = 10 := by exact_mod_cast (by linarith : (k : ℚ) = 10)
    subst hk10
    rw [hcp]
    norm_num [positionFromRounded, position_map]
  · intro h
    rw [hq] at h
    have hk12 : k = 12 := by exact_mod_cast (by linarith : (k : ℚ) = 12)
    subst hk12
    rw [hcp]
    norm_num [positionFromRounded, position_map]
  · intro h
    rw [hq] at h
    have hk14 : k = 14 := by exact_mod_cast (by linarith : (k : ℚ) = 14)
    subst hk14
    rw [hcp]
    norm_num [positionFromRounded, position_map]
  · intro h
    rw [hq] at h
    have hk16 : k = 16 := by exact_mod_cast (by linarith : (k : ℚ) = 16)
    subst hk16
    rw [hcp]
    norm_num [positionFromRounded, position_map]
  · intro h
    rw [hq] at h
    have hk18 : k = 18 := by exact_mod_cast (by linarith : (k : ℚ) = 18)
    subst hk18
    rw [hcp]
    norm_num [positionFromRounded, position_map]
  · intro h
    rw [hq] at h
    have hk20 : k = 20 := by exact_mod_cast (by linarith : (k : ℚ) = 20)
    subst hk20
    rw [hcp]
    norm_num [positionFromRounded, position_map]
  · intro h5 h9 hnone
    rw [hq] at h5 h9 hnone
    rw [hcp, hq]
    have hk10 : 10 < k := by exact_mod_cast (by linarith : (10 : ℚ) < k)
    have hk18 : k < 18 := by exact_mod_cast (by linarith : (k : ℚ) < 18)
    interval_cases k <;>
      norm_num [positionFromRounded, position_map, pyInt]
  · intro h9 hnone
    rw [hq] at h9 hnone
    rw [hcp]
    simp only [positionFromRounded]
    rw [hnone]
    simp [h9]
  · intro h5
    rw [hq] at h5
    rw [hcp, hq]
    have hnone : position_map ((k : ℚ) / 2) = none := by
      rw [position_map]
      split_ifs with h h h h h h <;> first | rfl | (exfalso; linarith)
    simp only [positionFromRounded]
    rw [hnone]
    have h9 : ¬ (9 : ℚ) ≤ (k : ℚ) / 2 := by linarith
    have h5' : ¬ (5 : ℚ) < (k : ℚ) / 2 := by linarith
    simp only [if_neg h9, if_neg h5', if_pos h5]
    have harg : (k : ℚ) / 2 / 5 * 40 = ((4 * k : ℤ) : ℚ) := by
      push_cast
      ring
    rw [harg, pyInt_intCast]
  · intro t ht
    rw [calculate_position_percentage, calculate_position_percentage, ht]

/-- Witness for C1: 7.24 and 7.1 both quantize to 7.0 and map to 60,
9.0 maps to 100, 10.0 maps to 90, and 6.3 quantizes to 6.5 which
interpolates between the 6 and 7 anchors to 55. -/
theorem position_percentage_witness :
    calculate_position_percentage 7.24 = 60 ∧
    calculate_position_percentage 7.1 = 60 ∧
    calculate_position_percentage 9 = 100 ∧
    calculate_position_percentage 10 = 90 ∧
    calculate_position_percentage 6.3 = 55 := by
  have q724 : quantizeHalf 7.24 = 7 := by
    rw [quantizeHalf, pyRound]
    norm_num
  have q71 : quantizeHalf 7.1 = 7 := by
    rw [quantizeHalf, pyRound]
    norm_num
  have q9 : quantizeHalf 9 = 9 := by
    rw [quantizeHalf, pyRound]
    norm_num
  have q10 : quantizeHalf 10 = 10 := by
    rw [quantizeHalf, pyRound]
    norm_num
  have q63 : quantizeHalf 6.3 = 6.5 := by
    rw [quantizeHalf, pyRound]
    norm_num
  refine ⟨(position_percentage_spec 7.24).2.2.1 q724,
    (position_percentage_spec 7.1).2.2.1 q71,
    (position_percentage_spec 9).2.2.2.2.1 q9,
    (position_percentage_spec 10).2.2.2.2.2.1 q10, ?_⟩
  have h := (position_percentage_spec 6.3).2.2.2.2.2.2.1
    (by rw [q63]; norm_num) (by rw [q63]; norm_num)
    (by rw [q63]; norm_num [position_map])
  have h55 : (calculate_position_percentage 6.3 : ℚ) = 55 := by
    rw [h, q63]
    norm_num [position_map]
  exact_mod_cast h55

end MarketChecklist
